import Mathlib

/-!
Verification of the sales-analysis pipeline (src/app.py) against its
natural-language specification.

The embedding is shallow: pandas DataFrames become a Table of typed cells,
floats become rationals (a missing value, NaN/NaT, is the explicit cell
Value.missing; quantities whose exact value involves a square root, such as
a standard deviation or a Pearson denominator, are represented by their
squares), and the sklearn library algorithms (StandardScaler+PCA, the
k-means iteration) are abstract function parameters, since only their
call pattern, validation and seeding are code of this repository.
-/

/-- A single cell of the tabular dataset: a numeric value, a parsed
date (encoded as a natural number key preserving chronological order),
a text value, or the missing marker (NaN / NaT in pandas). -/
inductive Value where
  | num (q : ℚ)
  | date (d : ℕ)
  | text (s : String)
  | missing
deriving DecidableEq

/-- A row of the dataset, one cell per column, in column order. -/
abbrev Row := List Value

/-- The normalized dataset: named columns and the list of rows.
Models the pandas DataFrame held in df_global. -/
structure Table where
  cols : List String
  rows : List Row
deriving DecidableEq

/-- Cell of a row at a column index; out-of-range reads are the missing
marker. -/
def cellAt (r : Row) (i : ℕ) : Value := r.getD i .missing

/-- Index of a named column in the table (models df.columns lookup). -/
def colIdx (t : Table) (c : String) : ℕ := t.cols.indexOf c

/-- The series of cells of one named column (models df[c]). -/
def colVals (t : Table) (c : String) : List Value :=
  t.rows.map (fun r => cellAt r (colIdx t c))

/-- Numeric content of a list of cells with missing values excluded:
this is how every pandas reduction (sum, mean, max, min, quantile, std)
treats a series, namely skipna=True. -/
def dropNA (vs : List Value) : List ℚ :=
  vs.filterMap (fun v => match v with | .num q => some q | _ => none)

/-- Numeric content of a single cell, with a missing or non-numeric cell
contributing 0; summing these is the same as summing dropNA. -/
def numOr0 (v : Value) : ℚ :=
  match v with
  | .num q => q
  | _ => 0

lemma dropNA_sum (vs : List Value) : (dropNA vs).sum = (vs.map numOr0).sum := by
  induction vs with
  | nil => rfl
  | cons v vs ih =>
    cases v <;> simp [dropNA, numOr0, List.filterMap_cons] at * <;> simp [ih]

lemma dropNA_append (a b : List Value) : dropNA (a ++ b) = dropNA a ++ dropNA b := by
  simp [dropNA]

/-! ### Dataset Loader (load_data, src/app.py lines 52-67) -/

/-- Abstract byte source behind a CSV file path. decodeStrict gives the
decoded text under a named character encoding, or none when the decoder
raises UnicodeDecodeError; decodeReplace is the text produced by the
default utf-8 decoding with errors replaced, which cannot fail; parseCsv
is the structural CSV parse of a decoded text, whose error case carries
the exception message str(e). -/
structure ByteSource where
  decodeStrict : String → Option String
  decodeReplace : String
  parseCsv : String → Except String Table

/-- Result of load_data: either a parsed table or, when any exception
other than UnicodeDecodeError escapes, the failure string str(e)
returned instead of raising. -/
inductive LoadResult where
  | table (t : Table)
  | failure (msg : String)
deriving DecidableEq

/-- The ordered encoding list hardcoded in load_data. -/
def ENCODINGS : List String := ["latin1", "iso-8859-1", "cp1252"]

/-- One pd.read_csv(filepath, encoding) attempt: decode then parse. -/
inductive ReadOutcome where
  | ok (t : Table)
  | unicodeDecodeError
  | exception (msg : String)
deriving DecidableEq

/-- Models pd.read_csv under a strict encoding: a decode failure is
UnicodeDecodeError (caught by the loop and skipped); a structural parse
failure is any other exception (propagates to the outer handler). -/
def read_csv (src : ByteSource) (encoding : String) : ReadOutcome :=
  match src.decodeStrict encoding with
  | none => .unicodeDecodeError
  | some txt =>
    match src.parseCsv txt with
    | .ok t => .ok t
    | .error m => .exception m

/-- The encoding loop of load_data: try each encoding in order, skipping
UnicodeDecodeError; when the list is exhausted, retry once with the
default encoding under the replace-invalid-characters policy; any other
exception becomes the returned failure string. -/
def tryEncodings (src : ByteSource) : List String → LoadResult
  | [] =>
    match src.parseCsv src.decodeReplace with
    | .ok t => .table t
    | .error m => .failure m
  | e :: rest =>
    match read_csv src e with
    | .ok t => .table t
    | .unicodeDecodeError => tryEncodings src rest
    | .exception m => .failure m

/-- load_data (src/app.py lines 52-67). -/
def load_data (src : ByteSource) : LoadResult := tryEncodings src ENCODINGS

lemma tryEncodings_first (src : ByteSource) (pre : List String) :
    ∀ (e : String) (post : List String) (t : Table),
    (∀ e' ∈ pre, read_csv src e' = .unicodeDecodeError) →
    read_csv src e = .ok t →
    tryEncodings src (pre ++ e :: post) = .table t := by
  induction pre with
  | nil =>
    intro e post t _ he
    simp [tryEncodings, he]
  | cons p pre ih =>
    intro e post t hpre he
    have hp : read_csv src p = .unicodeDecodeError := hpre p (by simp)
    simp only [List.cons_append, tryEncodings, hp]
    exact ih e post t (fun e' h => hpre e' (by simp [h])) he

lemma tryEncodings_exc (src : ByteSource) (pre : List String) :
    ∀ (e : String) (post : List String) (m : String),
    (∀ e' ∈ pre, read_csv src e' = .unicodeDecodeError) →
    read_csv src e = .exception m →
    tryEncodings src (pre ++ e :: post) = .failure m := by
  induction pre with
  | nil =>
    intro e post m _ he
    simp [tryEncodings, he]
  | cons p pre ih =>
    intro e post m hpre he
    have hp : read_csv src p = .unicodeDecodeError := hpre p (by simp)
    simp only [List.cons_append, tryEncodings, hp]
    exact ih e post m (fun e' h => hpre e' (by simp [h])) he

lemma tryEncodings_fallback (src : ByteSource) (l : List String) :
    (∀ e ∈ l, read_csv src e = .unicodeDecodeError) →
    tryEncodings src l =
      (match src.parseCsv src.decodeReplace with
       | .ok t => .table t
       | .error m => .failure m) := by
  induction l with
  | nil => intro _; rfl
  | cons p l ih =>
    intro h
    have hp : read_csv src p = .unicodeDecodeError := h p (by simp)
    simp only [tryEncodings, hp]
    exact ih (fun e he => h e (by simp [he]))

/-! ### Preprocessor (preprocess_data, src/app.py lines 69-74) -/

/-- Models pd.to_datetime(v, errors=coerce) on a single cell: an already
parsed date passes through; text and numeric cells go through the
supplied parsers ps and pn; an unparseable or missing cell becomes the
missing marker NaT. The parsers are parameters of the model, since the
date grammar lives inside pandas, not in this repository. -/
def toDatetime (ps : String → Option ℕ) (pn : ℚ → Option ℕ) (v : Value) : Value :=
  match v with
  | .date d => .date d
  | .text s => match ps s with | some d => .date d | none => .missing
  | .num q => match pn q with | some d => .date d | none => .missing
  | .missing => .missing

/-- Column assignment df[ORDERDATE] = to_datetime(df[ORDERDATE]): rewrite
the cell at index i of the row through toDatetime. -/
def parseRowAt (ps : String → Option ℕ) (pn : ℚ → Option ℕ) (i : ℕ) (r : Row) : Row :=
  r.set i (toDatetime ps pn (cellAt r i))

/-- Sort key of a row for sort_values(ORDERDATE): the date at index i
(rows kept by the preprocessor always carry a date there). -/
def dateKeyAt (i : ℕ) (r : Row) : ℕ :=
  match cellAt r i with
  | .date d => d
  | _ => 0

/-- Row comparison used by the ascending sort over the ORDERDATE column. -/
def dateLe (i : ℕ) (a b : Row) : Prop := dateKeyAt i a ≤ dateKeyAt i b

instance (i : ℕ) : DecidableRel (dateLe i) := fun _ _ => Nat.decLe _ _

instance (i : ℕ) : IsTotal Row (dateLe i) := ⟨fun _ _ => Nat.le_total _ _⟩

instance (i : ℕ) : IsTrans Row (dateLe i) := ⟨fun _ _ _ => Nat.le_trans⟩

/-- preprocess_data (src/app.py lines 69-74): when the ORDERDATE column is
present, parse it as dates with coercion of failures to missing, drop the
rows whose parse failed, and sort ascending by that column; otherwise pass
the table through unchanged. df.sort_values uses the default
kind=quicksort, which pandas documents as not stable: the only contract
is that the output rows are a permutation of the input rows sorted by
the key, and rows with equal ORDERDATE keys may come back in any order.
The sorting routine is therefore an abstract parameter sortValues,
constrained to that contract in the theorems. -/
def preprocess_data (sortValues : (Row → ℕ) → List Row → List Row)
    (ps : String → Option ℕ) (pn : ℚ → Option ℕ) (t : Table) : Table :=
  if "ORDERDATE" ∈ t.cols then
    let i := colIdx t "ORDERDATE"
    let parsed := t.rows.map (parseRowAt ps pn i)
    let kept := parsed.filter (fun r => cellAt r i ≠ .missing)
    { cols := t.cols, rows := sortValues (dateKeyAt i) kept }
  else t

lemma toDatetime_shape (ps : String → Option ℕ) (pn : ℚ → Option ℕ) (v : Value) :
    toDatetime ps pn v = .missing ∨ ∃ d, toDatetime ps pn v = .date d := by
  cases v with
  | num q =>
    rcases h : pn q with _ | d
    · exact Or.inl (by simp [toDatetime, h])
    · exact Or.inr ⟨d, by simp [toDatetime, h]⟩
  | date d => exact Or.inr ⟨d, rfl⟩
  | text s =>
    rcases h : ps s with _ | d
    · exact Or.inl (by simp [toDatetime, h])
    · exact Or.inr ⟨d, by simp [toDatetime, h]⟩
  | missing => exact Or.inl rfl

lemma cellAt_set_self (r : Row) (i : ℕ) (v : Value) :
    cellAt (r.set i v) i = if i < r.length then v else cellAt r i := by
  induction r generalizing i with
  | nil => simp [cellAt]
  | cons a r ih =>
    cases i with
    | zero => simp [cellAt]
    | succ n =>
      have e1 : cellAt ((a :: r).set (n + 1) v) (n + 1) = cellAt (r.set n v) n := rfl
      have e2 : cellAt (a :: r) (n + 1) = cellAt r n := rfl
      rw [e1, ih n, e2]
      simp [Nat.succ_lt_succ_iff]

lemma set_cellAt_self (r : Row) (i : ℕ) (h : i < r.length) :
    r.set i (cellAt r i) = r := by
  induction r generalizing i with
  | nil => simp at h
  | cons a r ih =>
    cases i with
    | zero => rfl
    | succ n =>
      have h' : n < r.length := by simpa using h
      have e1 : cellAt (a :: r) (n + 1) = cellAt r n := rfl
      show a :: r.set n (cellAt (a :: r) (n + 1)) = a :: r
      rw [e1, ih n h']

lemma parseRowAt_kept (ps : String → Option ℕ) (pn : ℚ → Option ℕ) (i : ℕ) (r : Row)
    (h : cellAt (parseRowAt ps pn i r) i ≠ .missing) :
    parseRowAt ps pn i (parseRowAt ps pn i r) = parseRowAt ps pn i r := by
  by_cases hlen : i < r.length
  · have hc : cellAt (parseRowAt ps pn i r) i = toDatetime ps pn (cellAt r i) := by
      simp [parseRowAt, cellAt_set_self, hlen]
    rcases toDatetime_shape ps pn (cellAt r i) with hm | ⟨d, hd⟩
    · exact absurd (hc.trans hm) h
    · have hdate : cellAt (parseRowAt ps pn i r) i = .date d := hc.trans hd
      have hlen2 : i < (parseRowAt ps pn i r).length := by
        simpa [parseRowAt] using hlen
      calc parseRowAt ps pn i (parseRowAt ps pn i r)
          = (parseRowAt ps pn i r).set i (cellAt (parseRowAt ps pn i r) i) := by
            rw [parseRowAt, hdate, toDatetime]
        _ = parseRowAt ps pn i r := set_cellAt_self _ i hlen2
  · exfalso
    apply h
    have hset : parseRowAt ps pn i r = r :=
      List.set_eq_of_length_le (Nat.le_of_not_lt hlen)
    rw [hset]
    show List.getD r i Value.missing = Value.missing
    rw [List.getD_eq_getElem?_getD, List.getElem?_eq_none (Nat.le_of_not_lt hlen)]
    rfl

lemma preprocess_eq_of_mem (sortValues : (Row → ℕ) → List Row → List Row)
    (ps : String → Option ℕ) (pn : ℚ → Option ℕ) (t : Table)
    (hm : "ORDERDATE" ∈ t.cols) :
    preprocess_data sortValues ps pn t =
      { cols := t.cols,
        rows := sortValues (dateKeyAt (colIdx t "ORDERDATE"))
          ((t.rows.map (parseRowAt ps pn (colIdx t "ORDERDATE"))).filter
            (fun r => cellAt r (colIdx t "ORDERDATE") ≠ Value.missing)) } := by
  simp [preprocess_data, hm]

lemma preprocess_eq_of_not_mem (sortValues : (Row → ℕ) → List Row → List Row)
    (ps : String → Option ℕ) (pn : ℚ → Option ℕ) (t : Table)
    (hm : "ORDERDATE" ∉ t.cols) : preprocess_data sortValues ps pn t = t := by
  simp [preprocess_data, hm]

/-- Two lists that are permutations of each other, both sorted by a key,
with pairwise distinct keys, are equal: sortedness determines the order
completely once no two rows share a key. -/
lemma eq_of_perm_sorted_nodup_keys (key : Row → ℕ) :
    ∀ l₁ l₂ : List Row, l₁.Perm l₂ →
      l₁.Sorted (fun a b => key a ≤ key b) →
      l₂.Sorted (fun a b => key a ≤ key b) →
      (l₁.map key).Nodup → l₁ = l₂ := by
  intro l₁
  induction l₁ with
  | nil =>
    intro l₂ hp _ _ _
    exact (hp.symm.eq_nil).symm
  | cons a l₁ ih =>
    intro l₂ hp hs1 hs2 hnd
    cases l₂ with
    | nil => exact absurd hp.eq_nil (List.cons_ne_nil a l₁)
    | cons b l₂ =>
      rw [List.map_cons, List.nodup_cons] at hnd
      have hab : a = b := by
        have hmemb : b ∈ a :: l₁ := hp.mem_iff.2 (List.mem_cons_self b l₂)
        rcases List.mem_cons.1 hmemb with hba | hbl
        · exact hba.symm
        · have hmema : a ∈ b :: l₂ := hp.mem_iff.1 (List.mem_cons_self a l₁)
          rcases List.mem_cons.1 hmema with hab2 | hal
          · exact hab2
          · have h1 : key a ≤ key b := List.rel_of_sorted_cons hs1 b hbl
            have h2 : key b ≤ key a := List.rel_of_sorted_cons hs2 a hal
            exact absurd (List.mem_map.2 ⟨b, hbl, le_antisymm h2 h1⟩) hnd.1
      subst hab
      have hp' : l₁.Perm l₂ := hp.cons_inv
      rw [ih l₂ hp' hs1.of_cons hs2.of_cons hnd.2]

/-- Claim C5 as amended: the preprocessor is idempotent up to the order
of rows sharing an ORDERDATE key. For every sorting routine satisfying
the sort_values contract (output a permutation of the input, sorted
ascending by the key) and all date parsers, reapplying preprocess_data
to a processed table preserves the columns, yields the same rows up to
permutation, leaves the rows sorted by ORDERDATE, and is the exact
identity whenever the processed table carries pairwise distinct
ORDERDATE keys (ties are what an unstable quicksort may reorder). -/
theorem C5_preprocess_idempotent_up_to_ties
    (sortValues : (Row → ℕ) → List Row → List Row)
    (hperm : ∀ (key : Row → ℕ) (l : List Row), (sortValues key l).Perm l)
    (hsort : ∀ (key : Row → ℕ) (l : List Row),
      (sortValues key l).Sorted (fun a b => key a ≤ key b))
    (ps : String → Option ℕ) (pn : ℚ → Option ℕ) (t : Table) :
    (preprocess_data sortValues ps pn (preprocess_data sortValues ps pn t)).cols
        = (preprocess_data sortValues ps pn t).cols
    ∧ (preprocess_data sortValues ps pn (preprocess_data sortValues ps pn t)).rows.Perm
        (preprocess_data sortValues ps pn t).rows
    ∧ ("ORDERDATE" ∈ t.cols →
        (preprocess_data sortValues ps pn (preprocess_data sortValues ps pn t)).rows.Sorted
          (dateLe (colIdx t "ORDERDATE")))
    ∧ (((preprocess_data sortValues ps pn t).rows.map
          (dateKeyAt (colIdx t "ORDERDATE"))).Nodup →
        preprocess_data sortValues ps pn (preprocess_data sortValues ps pn t)
          = preprocess_data sortValues ps pn t) := by
  by_cases hm : "ORDERDATE" ∈ t.cols
  · rw [preprocess_eq_of_mem sortValues ps pn t hm]
    have hm1 : "ORDERDATE" ∈
        (⟨t.cols, sortValues (dateKeyAt (colIdx t "ORDERDATE"))
          ((t.rows.map (parseRowAt ps pn (colIdx t "ORDERDATE"))).filter
            (fun r => cellAt r (colIdx t "ORDERDATE") ≠ Value.missing))⟩ : Table).cols := hm
    rw [preprocess_eq_of_mem sortValues ps pn _ hm1]
    have hidx : colIdx
        (⟨t.cols, sortValues (dateKeyAt (colIdx t "ORDERDATE"))
          ((t.rows.map (parseRowAt ps pn (colIdx t "ORDERDATE"))).filter
            (fun r => cellAt r (colIdx t "ORDERDATE") ≠ Value.missing))⟩ : Table)
        "ORDERDATE" = colIdx t "ORDERDATE" := rfl
    rw [hidx]
    set i := colIdx t "ORDERDATE" with hi
    set l1 := sortValues (dateKeyAt i) ((t.rows.map (parseRowAt ps pn i)).filter
        (fun r => cellAt r i ≠ Value.missing)) with hl1
    have hall : ∀ r ∈ l1, parseRowAt ps pn i r = r ∧ cellAt r i ≠ Value.missing := by
      intro r hr
      rw [hl1] at hr
      have hr2 : r ∈ (t.rows.map (parseRowAt ps pn i)).filter
          (fun r => cellAt r i ≠ Value.missing) := ((hperm _ _).mem_iff).1 hr
      have hr3 := List.mem_filter.1 hr2
      have hne : cellAt r i ≠ Value.missing := by
        have := hr3.2
        exact of_decide_eq_true this
      rcases List.mem_map.1 hr3.1 with ⟨r0, _, hr0⟩
      refine ⟨?_, hne⟩
      rw [← hr0]
      rw [← hr0] at hne
      exact parseRowAt_kept ps pn i r0 hne
    have hmap : l1.map (parseRowAt ps pn i) = l1 :=
      (List.map_congr_left (fun r hr => (hall r hr).1)).trans (List.map_id l1)
    rw [hmap]
    have hfil : l1.filter (fun r => cellAt r i ≠ Value.missing) = l1 :=
      List.filter_eq_self.2 (fun r hr => decide_eq_true (hall r hr).2)
    rw [hfil]
    have hsl1 : l1.Sorted (fun a b => dateKeyAt i a ≤ dateKeyAt i b) := by
      rw [hl1]
      exact hsort (dateKeyAt i) _
    refine ⟨rfl, hperm (dateKeyAt i) l1, fun _ => hsort (dateKeyAt i) l1, fun hnd => ?_⟩
    have hnd1 : ((sortValues (dateKeyAt i) l1).map (dateKeyAt i)).Nodup :=
      (((hperm (dateKeyAt i) l1).map (dateKeyAt i)).nodup_iff).2 hnd
    have heq : sortValues (dateKeyAt i) l1 = l1 :=
      eq_of_perm_sorted_nodup_keys (dateKeyAt i) _ _ (hperm (dateKeyAt i) l1)
        (hsort (dateKeyAt i) l1) hsl1 hnd1
    rw [heq]
  · rw [preprocess_eq_of_not_mem sortValues ps pn t hm,
      preprocess_eq_of_not_mem sortValues ps pn t hm]
    exact ⟨rfl, List.Perm.refl _, fun hmem => absurd hmem hm, fun _ => rfl⟩

/-- One legitimate outcome of the unstable quicksort behind sort_values:
a comparison sort on the key that reverses the relative order of rows
with equal keys on every run (insertion using the strict key order). -/
def revTieSort (key : Row → ℕ) (l : List Row) : List Row :=
  l.insertionSort (fun a b => key a < key b)

lemma revTieSort_perm (key : Row → ℕ) (l : List Row) : (revTieSort key l).Perm l :=
  List.perm_insertionSort _ l

lemma orderedInsert_lt_sorted (key : Row → ℕ) (a : Row) :
    ∀ l : List Row, l.Sorted (fun x y => key x ≤ key y) →
      (l.orderedInsert (fun x y => key x < key y) a).Sorted (fun x y => key x ≤ key y) := by
  intro l
  induction l with
  | nil =>
    intro _
    simp [List.orderedInsert]
  | cons b l ih =>
    intro hs
    by_cases hlt : key a < key b
    · simp only [List.orderedInsert, if_pos hlt]
      rw [List.sorted_cons]
      refine ⟨?_, hs⟩
      intro x hx
      rcases List.mem_cons.1 hx with rfl | hxl
      · exact le_of_lt hlt
      · exact le_trans (le_of_lt hlt) (List.rel_of_sorted_cons hs x hxl)
    · simp only [List.orderedInsert, if_neg hlt]
      rw [List.sorted_cons]
      refine ⟨?_, ih hs.of_cons⟩
      intro x hx
      rcases (List.mem_orderedInsert _).1 hx with rfl | hxl
      · exact Nat.le_of_not_lt hlt
      · exact List.rel_of_sorted_cons hs x hxl

lemma revTieSort_sorted (key : Row → ℕ) (l : List Row) :
    (revTieSort key l).Sorted (fun a b => key a ≤ key b) := by
  unfold revTieSort
  induction l with
  | nil => simp
  | cons a l ih =>
    simp only [List.insertionSort]
    exact orderedInsert_lt_sorted key a _ ih

/-- Trivial concrete date parsers for the C5 inputs (whose ORDERDATE
cells are already parsed dates, which toDatetime passes through). -/
def ps0 : String → Option ℕ := fun _ => none

/-- Trivial numeric date parser for the C5 inputs. -/
def pn0 : ℚ → Option ℕ := fun _ => none

/-- An already-processed table with two rows sharing the ORDERDATE key. -/
def exC5 : Table :=
  ⟨["ORDERDATE", "X"], [[Value.date 1, Value.num 1], [Value.date 1, Value.num 2]]⟩

/-- An already-processed table with pairwise distinct ORDERDATE keys. -/
def exC5d : Table :=
  ⟨["ORDERDATE", "X"], [[Value.date 1, Value.num 1], [Value.date 2, Value.num 2]]⟩

/-- Claim C5, counterexample: under revTieSort, a sorting routine
satisfying everything pandas guarantees of sort_values (revTieSort_perm
and revTieSort_sorted), reapplying the preprocessor to the processed
two-row table whose rows share an ORDERDATE value swaps the tied rows:
the preprocessor is not idempotent. -/
theorem C5_counterexample :
    preprocess_data revTieSort ps0 pn0 (preprocess_data revTieSort ps0 pn0 exC5)
      ≠ preprocess_data revTieSort ps0 pn0 exC5 := by
  decide

/-- Witness for the amended C5 at the unstable instance revTieSort: the
rows after a second application are a permutation of the rows after
one, they remain sorted by ORDERDATE, and on the distinct-keys table
the second application is the exact identity. -/
theorem C5_preprocess_idempotent_up_to_ties_witness :
    (preprocess_data revTieSort ps0 pn0
        (preprocess_data revTieSort ps0 pn0 exC5)).rows.Perm
      (preprocess_data revTieSort ps0 pn0 exC5).rows
    ∧ (preprocess_data revTieSort ps0 pn0
        (preprocess_data revTieSort ps0 pn0 exC5)).rows.Sorted
      (dateLe (colIdx exC5 "ORDERDATE"))
    ∧ preprocess_data revTieSort ps0 pn0 (preprocess_data revTieSort ps0 pn0 exC5d)
        = preprocess_data revTieSort ps0 pn0 exC5d :=
  ⟨(C5_preprocess_idempotent_up_to_ties revTieSort revTieSort_perm revTieSort_sorted
      ps0 pn0 exC5).2.1,
   (C5_preprocess_idempotent_up_to_ties revTieSort revTieSort_perm revTieSort_sorted
      ps0 pn0 exC5).2.2.1 (by decide),
   (C5_preprocess_idempotent_up_to_ties revTieSort revTieSort_perm revTieSort_sorted
      ps0 pn0 exC5d).2.2.2 (by decide)⟩

/-! ### Statistics Engine: summary and grouping (src/app.py lines 76-88) -/

/-- Result record of get_sales_summary. Aggregates over an empty set of
non-missing values are NaN in pandas, modeled as none; the sum of an
empty series is 0.0, hence total_sales is a plain rational. -/
structure SalesSummary where
  total_sales : ℚ
  average_sales : Option ℚ
  max_sales : Option ℚ
  min_sales : Option ℚ
  total_orders : ℕ
deriving DecidableEq

/-- get_sales_summary (src/app.py lines 76-83): sum, mean, max and min of
the SALES series (each a pandas reduction with skipna=True, so computed
over non-missing values), and total_orders = df.shape[0], the number of
rows of the whole frame. -/
def get_sales_summary (t : Table) : SalesSummary :=
  let s := dropNA (colVals t "SALES")
  { total_sales := s.sum
    average_sales := if s.isEmpty then none else some (s.sum / s.length)
    max_sales := s.max?
    min_sales := s.min?
    total_orders := t.rows.length }

/-- Grouping key of a row: its ORDERDATE cell when that cell is a parsed
date; pandas groupby drops rows whose key is the missing marker. -/
def rowDateKey (t : Table) (r : Row) : Option ℕ :=
  match cellAt r (colIdx t "ORDERDATE") with
  | .date d => some d
  | _ => none

/-- Models strftime of a date key (an injective calendar-date formatter). -/
def formatDate (d : ℕ) : String := toString d

/-- group_sales_by_date (src/app.py lines 85-88): group the rows by
ORDERDATE (rows with a missing key are dropped, keys emitted ascending),
sum the SALES series of each group with missing values skipped, and
format the key through strftime. -/
def group_sales_by_date (t : Table) : List (String × ℚ) :=
  let keyed := t.rows.filterMap (fun r => (rowDateKey t r).map (fun d => (d, r)))
  let keys := ((keyed.map Prod.fst).dedup).insertionSort (fun a b => a ≤ b)
  keys.map (fun d =>
    (formatDate d,
      (dropNA ((keyed.filter (fun p => p.1 = d)).map
        (fun p => cellAt p.2 (colIdx t "SALES")))).sum))

lemma buckets_cons {K R : Type} [DecidableEq K] (key : R → K) (f : R → ℚ)
    (ks : List K) (hk : ks.Nodup) (r : R) (rs : List R) :
    (ks.map (fun k => (((r :: rs).filter (fun x => key x = k)).map f).sum)).sum =
      (if key r ∈ ks then f r else 0) +
        (ks.map (fun k => ((rs.filter (fun x => key x = k)).map f).sum)).sum := by
  induction ks with
  | nil => simp
  | cons k ks ih =>
    have hk2 : ks.Nodup := (List.nodup_cons.1 hk).2
    rw [List.map_cons, List.sum_cons, List.map_cons, List.sum_cons, ih hk2,
      List.filter_cons]
    by_cases hkr : key r = k
    · have hc : decide (key r = k) = true := decide_eq_true hkr
      have hnotin : key r ∉ ks := by
        rw [hkr]
        exact (List.nodup_cons.1 hk).1
      rw [if_pos hc, List.map_cons, List.sum_cons, if_neg hnotin,
        if_pos (List.mem_cons.2 (Or.inl hkr))]
      ring
    · have hc : ¬(decide (key r = k) = true) := by simp [hkr]
      rw [if_neg hc]
      by_cases hmem : key r ∈ ks
      · rw [if_pos hmem, if_pos (List.mem_cons.2 (Or.inr hmem))]
        ring
      · have hnot : key r ∉ k :: ks := by
          rw [List.mem_cons]
          rintro (h | h)
          · exact hkr h
          · exact hmem h
        rw [if_neg hmem, if_neg hnot]
        ring

lemma sum_buckets {K R : Type} [DecidableEq K] (key : R → K) (f : R → ℚ)
    (ks : List K) (hk : ks.Nodup) (rs : List R) (hcov : ∀ r ∈ rs, key r ∈ ks) :
    (ks.map (fun k => ((rs.filter (fun x => key x = k)).map f).sum)).sum =
      (rs.map f).sum := by
  induction rs with
  | nil => simp
  | cons r rs ih =>
    rw [buckets_cons key f ks hk r rs, if_pos (hcov r (by simp)),
      ih (fun x hx => hcov x (by simp [hx]))]
    simp

lemma filterMap_keyed_sum (t : Table) (g : Row → ℚ) :
    ∀ rows : List Row, (∀ r ∈ rows, (rowDateKey t r).isSome) →
    ((rows.filterMap (fun r => (rowDateKey t r).map (fun d => (d, r)))).map
        (fun p => g p.2)).sum = (rows.map g).sum := by
  intro rows
  induction rows with
  | nil => intro _; rfl
  | cons r rows ih =>
    intro hd
    rcases Option.isSome_iff_exists.1 (hd r (by simp)) with ⟨d, hdk⟩
    have ih2 := ih (fun x hx => hd x (by simp [hx]))
    simp [List.filterMap_cons, hdk, ih2]

/-- Claim C6: grouping preserves total mass. For every valid table (each
row carries a parsed, non-missing ORDERDATE key, which is the invariant
the preprocessor establishes), the sum of the aggregated SALES values
over all entries of group_sales_by_date equals the total_sales field of
get_sales_summary. -/
theorem C6_group_preserves_total (t : Table)
    (hd : ∀ r ∈ t.rows, (rowDateKey t r).isSome) :
    ((group_sales_by_date t).map Prod.snd).sum = (get_sales_summary t).total_sales := by
  have hsummary : (get_sales_summary t).total_sales =
      (t.rows.map (fun r => numOr0 (cellAt r (colIdx t "SALES")))).sum := by
    simp [get_sales_summary, dropNA_sum, colVals, List.map_map, Function.comp_def]
  rw [hsummary]
  unfold group_sales_by_date
  rw [List.map_map]
  set keyed := t.rows.filterMap (fun r => (rowDateKey t r).map (fun d => (d, r))) with hkeyed
  set keys := ((keyed.map Prod.fst).dedup).insertionSort (fun a b => a ≤ b) with hkeys
  have hmapped : (Prod.snd ∘ fun d =>
      (formatDate d,
        (dropNA ((keyed.filter (fun p => p.1 = d)).map
          (fun p => cellAt p.2 (colIdx t "SALES")))).sum)) =
      (fun d => ((keyed.filter (fun p => p.1 = d)).map
        (fun p => numOr0 (cellAt p.2 (colIdx t "SALES")))).sum) := by
    funext d
    simp [dropNA_sum, List.map_map, Function.comp_def]
  rw [hmapped]
  have hnodup : keys.Nodup := by
    rw [hkeys]
    exact (List.perm_insertionSort _ _).nodup_iff.2 (List.nodup_dedup _)
  have hcov : ∀ p ∈ keyed, p.1 ∈ keys := by
    intro p hp
    rw [hkeys]
    rw [List.mem_insertionSort, List.mem_dedup]
    exact List.mem_map.2 ⟨p, hp, rfl⟩
  have hpart := sum_buckets (K := ℕ) (R := ℕ × Row) Prod.fst
    (fun p => numOr0 (cellAt p.2 (colIdx t "SALES"))) keys hnodup keyed hcov
  rw [hpart]
  rw [hkeyed]
  exact filterMap_keyed_sum t (fun r => numOr0 (cellAt r (colIdx t "SALES"))) t.rows hd

/-- Witness for C6 at the scenario table of the spec: three rows with
dates 1, 1, 2 and sales 100, 50, 30. -/
theorem C6_group_preserves_total_witness :
    ((group_sales_by_date ⟨["ORDERDATE", "SALES"],
        [[Value.date 1, Value.num 100], [Value.date 1, Value.num 50],
         [Value.date 2, Value.num 30]]⟩).map Prod.snd).sum =
      (get_sales_summary ⟨["ORDERDATE", "SALES"],
        [[Value.date 1, Value.num 100], [Value.date 1, Value.num 50],
         [Value.date 2, Value.num 30]]⟩).total_sales :=
  C6_group_preserves_total _ (by decide)

/-- Claim C10 (implicit): in get_sales_summary, total_orders counts every
row of the table, rows with a missing SALES value included, while
total_sales, average_sales, max_sales and min_sales are computed over
the non-missing SALES values only: appending a row whose SALES cell is
missing raises total_orders by one and leaves the four aggregates
unchanged. Hence average_sales need not equal total_sales divided by
total_orders, exhibited on a table holding sales 100, 50 and a missing
value, where the mean is 75 but total over count is 50. -/
theorem C10_count_includes_missing :
    (∀ (t : Table) (r : Row),
      cellAt r (colIdx t "SALES") = Value.missing →
      (get_sales_summary ⟨t.cols, t.rows ++ [r]⟩).total_orders
          = (get_sales_summary t).total_orders + 1
        ∧ (get_sales_summary ⟨t.cols, t.rows ++ [r]⟩).total_sales
          = (get_sales_summary t).total_sales
        ∧ (get_sales_summary ⟨t.cols, t.rows ++ [r]⟩).average_sales
          = (get_sales_summary t).average_sales
        ∧ (get_sales_summary ⟨t.cols, t.rows ++ [r]⟩).max_sales
          = (get_sales_summary t).max_sales
        ∧ (get_sales_summary ⟨t.cols, t.rows ++ [r]⟩).min_sales
          = (get_sales_summary t).min_sales)
    ∧ (get_sales_summary ⟨["SALES"],
          [[Value.num 100], [Value.num 50], [Value.missing]]⟩).average_sales ≠
        some ((get_sales_summary ⟨["SALES"],
            [[Value.num 100], [Value.num 50], [Value.missing]]⟩).total_sales /
          ((get_sales_summary ⟨["SALES"],
            [[Value.num 100], [Value.num 50], [Value.missing]]⟩).total_orders : ℚ)) := by
  constructor
  · intro t r hmiss
    have hcols : colIdx (⟨t.cols, t.rows ++ [r]⟩ : Table) "SALES" = colIdx t "SALES" := rfl
    have hvals : colVals (⟨t.cols, t.rows ++ [r]⟩ : Table) "SALES" =
        colVals t "SALES" ++ [cellAt r (colIdx t "SALES")] := by
      simp [colVals, hcols]
    have hdrop : dropNA (colVals (⟨t.cols, t.rows ++ [r]⟩ : Table) "SALES") =
        dropNA (colVals t "SALES") := by
      rw [hvals, dropNA_append, hmiss]
      simp [dropNA]
    refine ⟨?_, ?_, ?_, ?_, ?_⟩ <;>
      simp [get_sales_summary, hdrop]
  · norm_num [get_sales_summary, colVals, dropNA, cellAt, colIdx, List.filterMap]

/-- Witness for C10: the theorem applied to a one-row table and an
appended missing-sales row, plus its concrete inequality part. -/
theorem C10_count_includes_missing_witness :
    ((get_sales_summary ⟨["SALES"], [[Value.num 7]] ++ [[Value.missing]]⟩).total_orders
        = (get_sales_summary ⟨["SALES"], [[Value.num 7]]⟩).total_orders + 1
      ∧ (get_sales_summary ⟨["SALES"], [[Value.num 7]] ++ [[Value.missing]]⟩).total_sales
        = (get_sales_summary ⟨["SALES"], [[Value.num 7]]⟩).total_sales)
    ∧ (get_sales_summary ⟨["SALES"],
          [[Value.num 100], [Value.num 50], [Value.missing]]⟩).average_sales ≠
        some ((get_sales_summary ⟨["SALES"],
            [[Value.num 100], [Value.num 50], [Value.missing]]⟩).total_sales /
          ((get_sales_summary ⟨["SALES"],
            [[Value.num 100], [Value.num 50], [Value.missing]]⟩).total_orders : ℚ)) := by
  refine ⟨⟨?_, ?_⟩, C10_count_includes_missing.2⟩
  · exact (C10_count_includes_missing.1 ⟨["SALES"], [[Value.num 7]]⟩ [Value.missing]
      (by decide)).1
  · exact (C10_count_includes_missing.1 ⟨["SALES"], [[Value.num 7]]⟩ [Value.missing]
      (by decide)).2.1

/-! ### Statistics Engine: distribution (src/app.py lines 94-105, 240-248) -/

/-- Models select_dtypes(include=[number]): a pandas dtype is per column,
so a column is numeric when every cell is numeric or missing, and a
column holding any text or date cell is excluded. -/
def isNumericCol (t : Table) (j : ℕ) : Bool :=
  t.rows.all (fun r => match cellAt r j with
    | .num _ => true
    | .missing => true
    | _ => false)

/-- Result record of get_sales_distribution. The std field is represented
by its square stdSq (the sample variance, ddof=1), since the exact
standard deviation is irrational in general; a pandas NaN result (empty
series for the other statistics, fewer than two values for std) is none. -/
structure DistSummary where
  mean : Option ℚ
  stdSq : Option ℚ
  min : Option ℚ
  max : Option ℚ
  q25 : Option ℚ
  q50 : Option ℚ
  q75 : Option ℚ
deriving DecidableEq

/-- Series.quantile with the default linear interpolation over the sorted
values: position q*(n-1), linear between the two bracketing order
statistics; the median of the source is the 0.5 quantile. -/
def quantileOf (vals : List ℚ) (q : ℚ) : Option ℚ :=
  let s := vals.insertionSort (fun a b => a ≤ b)
  if s.isEmpty then none
  else
    let n := s.length
    let h : ℚ := q * ((n : ℚ) - 1)
    let lo := (⌊h⌋).toNat
    let hi := (⌈h⌉).toNat
    let g : ℚ := h - (⌊h⌋ : ℚ)
    some (s.getD lo 0 + g * (s.getD hi 0 - s.getD lo 0))

/-- The statistics record built by get_sales_distribution from the
non-missing values of the column (every pandas reduction it calls is
skipna=True, so the missing values are excluded, not substituted). -/
def distStats (s : List ℚ) : DistSummary :=
  { mean := if s.isEmpty then none else some (s.sum / s.length)
    stdSq := if s.length ≤ 1 then none
      else some ((s.map (fun x => (x - s.sum / s.length) ^ 2)).sum / ((s.length : ℚ) - 1))
    min := s.min?
    max := s.max?
    q25 := quantileOf s (1 / 4)
    q50 := quantileOf s (1 / 2)
    q75 := quantileOf s (3 / 4) }

/-- Observable result of get_sales_distribution at its call sites:
colAbsent is the returned None (mapped by the route to the
ColumnNotFoundError response); typeError is the TypeError that
float(df[column].mean()) raises when the present column has a
non-numeric dtype (text or temporal), propagating uncaught; stats is
the statistics record. -/
inductive DistResult where
  | colAbsent
  | typeError
  | stats (d : DistSummary)
deriving DecidableEq

/-- get_sales_distribution (src/app.py lines 94-105): None when the
column is absent (the route maps it to the ColumnNotFoundError response,
lines 245-247); a raised TypeError at the float conversion of the mean
when the column is present but not numeric; otherwise the statistics
over the non-missing values of the numeric column series, every pandas
reduction being skipna=True. -/
def get_sales_distribution (t : Table) (column : String) : DistResult :=
  if column ∈ t.cols then
    if isNumericCol t (colIdx t column) then
      .stats (distStats (dropNA (colVals t column)))
    else .typeError
  else .colAbsent

/-- Claim C7, counterexample: on a table whose NOTE column is present
and holds text, the distribution operation neither fails with the
ColumnNotFoundError response nor returns the claimed statistics: the
float conversion of the series mean raises the TypeError of the
library. -/
theorem C7_counterexample :
    get_sales_distribution ⟨["NOTE"], [[Value.text "a"]]⟩ "NOTE" = DistResult.typeError
    ∧ get_sales_distribution ⟨["NOTE"], [[Value.text "a"]]⟩ "NOTE"
        ≠ DistResult.colAbsent := by
  constructor
  · decide
  · decide

/-- Claim C7 as amended: get_sales_distribution fails with the
ColumnNotFoundError response exactly when the named column is absent;
for a present numeric column it returns mean, std, min, max and the
three quartiles computed over the column with missing values excluded
(not substituted), so the result depends only on the non-missing
values; and for a present non-numeric column it raises the TypeError of
the library instead of returning statistics. -/
theorem C7_distribution_column_errors (t : Table) (column : String) :
    (get_sales_distribution t column = DistResult.colAbsent ↔ column ∉ t.cols)
    ∧ (column ∈ t.cols → isNumericCol t (colIdx t column) = true →
        get_sales_distribution t column
          = DistResult.stats (distStats (dropNA (colVals t column))))
    ∧ (column ∈ t.cols → isNumericCol t (colIdx t column) = false →
        get_sales_distribution t column = DistResult.typeError)
    ∧ (∀ t' : Table, column ∈ t.cols → column ∈ t'.cols →
        isNumericCol t (colIdx t column) = true →
        isNumericCol t' (colIdx t' column) = true →
        dropNA (colVals t column) = dropNA (colVals t' column) →
        get_sales_distribution t column = get_sales_distribution t' column) := by
  refine ⟨?_, ?_, ?_, ?_⟩
  · by_cases h : column ∈ t.cols
    · by_cases hn : isNumericCol t (colIdx t column) = true <;>
        simp [get_sales_distribution, h, hn]
    · simp [get_sales_distribution, h]
  · intro h hn
    simp [get_sales_distribution, h, hn]
  · intro h hn
    simp [get_sales_distribution, h, hn]
  · intro t' h h' hn hn' he
    simp [get_sales_distribution, h, h', hn, hn', he]

/-- Witness for the amended C7: the absent column gives the
ColumnNotFoundError response; the scenario table with sales 100, 50, 30
gives the statistics of the clean series; a present text column gives
the TypeError; and a table with an extra missing sales cell and an
unrelated extra column gives the same distribution. -/
theorem C7_distribution_column_errors_witness :
    (get_sales_distribution ⟨["X"], [[Value.num 1]]⟩ "SALES" = DistResult.colAbsent)
    ∧ (get_sales_distribution ⟨["SALES"], [[Value.num 100], [Value.num 50], [Value.num 30]]⟩
        "SALES" = DistResult.stats (distStats (dropNA (colVals
          ⟨["SALES"], [[Value.num 100], [Value.num 50], [Value.num 30]]⟩ "SALES"))))
    ∧ (get_sales_distribution ⟨["NOTE", "SALES"], [[Value.text "a", Value.num 1]]⟩
        "NOTE" = DistResult.typeError)
    ∧ (get_sales_distribution ⟨["SALES"], [[Value.num 100], [Value.num 50], [Value.num 30]]⟩
        "SALES" =
      get_sales_distribution ⟨["SALES", "NOTE"],
        [[Value.num 100, Value.text "a"], [Value.num 50, Value.missing],
         [Value.missing, Value.num 9], [Value.num 30, Value.text "b"]]⟩ "SALES") :=
  ⟨(C7_distribution_column_errors ⟨["X"], [[Value.num 1]]⟩ "SALES").1.2 (by decide),
   (C7_distribution_column_errors _ "SALES").2.1 (by decide) (by decide),
   (C7_distribution_column_errors _ "NOTE").2.2.1 (by decide) (by decide),
   (C7_distribution_column_errors _ "SALES").2.2.2 _ (by decide) (by decide)
     (by decide) (by decide) (by decide)⟩

/-! ### Statistics Engine: correlation (src/app.py lines 90-92) -/

/-- Numeric reading of a cell: some q for a numeric cell, none otherwise. -/
def numAt (r : Row) (j : ℕ) : Option ℚ :=
  match cellAt r j with
  | .num q => some q
  | _ => none

/-- Indices of the numeric columns, in column order. -/
def numericIdxs (t : Table) : List ℕ :=
  (List.range t.cols.length).filter (fun j => isNumericCol t j)

/-- Rows on which both column i and column j carry a value: pandas corr
computes each entry over the pairwise-complete observations. -/
def pairRows (t : Table) (i j : ℕ) : List Row :=
  t.rows.filter (fun r => (numAt r i).isSome && (numAt r j).isSome)

/-- Mean of a series. -/
def meanOf (s : List ℚ) : ℚ := s.sum / s.length

/-- Centered product mass of two equally long series: the numerator mass
of Pearson correlation (the shared length normalization cancels in the
correlation ratio, so it is omitted). -/
def ssOf (xs ys : List ℚ) : ℚ :=
  ((xs.zip ys).map (fun p => (p.1 - meanOf xs) * (p.2 - meanOf ys))).sum

/-- One entry of the correlation matrix. The Pearson value of val is
num divided by the square root of denSq; nan is the undefined entry
pandas produces when either column has zero variance mass over the
pairwise-complete rows (including the empty and single-observation
cases). The square-root-free pair keeps the embedding rational; the
value is exactly 1 when 0 < num and num squared equals denSq. -/
inductive CorrEntry where
  | nan
  | val (numerMass denSqMass : ℚ)
deriving DecidableEq

/-- Series of column i over the given rows. -/
def seriesAt (rs : List Row) (i : ℕ) : List ℚ :=
  rs.map (fun r => (numAt r i).getD 0)

/-- Pearson entry for the column pair (i, j). -/
def corrEntry (t : Table) (i j : ℕ) : CorrEntry :=
  let rs := pairRows t i j
  let xs := seriesAt rs i
  let ys := seriesAt rs j
  if ssOf xs xs = 0 ∨ ssOf ys ys = 0 then .nan
  else .val (ssOf xs ys) (ssOf xs xs * ssOf ys ys)

/-- get_correlation_matrix (src/app.py lines 90-92): the square matrix
of pairwise Pearson entries over the numeric columns, zero-variance
columns included as nan rows rather than dropped. -/
def get_correlation_matrix (t : Table) : List (List CorrEntry) :=
  (numericIdxs t).map (fun i => (numericIdxs t).map (fun j => corrEntry t i j))

/-- Variance mass of column i over its own non-missing rows. -/
def varSS (t : Table) (i : ℕ) : ℚ :=
  ssOf (seriesAt (pairRows t i i) i) (seriesAt (pairRows t i i) i)

/-- The property of a correlation entry to represent exactly the value
1.0: its Pearson value num / sqrt denSq equals 1. -/
def corrIsOne (e : CorrEntry) : Prop :=
  ∃ n d, e = .val n d ∧ 0 < n ∧ n ^ 2 = d

lemma zip_self_map (xs : List ℚ) (f : ℚ × ℚ → ℚ) :
    (xs.zip xs).map f = xs.map (fun x => f (x, x)) := by
  induction xs with
  | nil => rfl
  | cons a xs ih => simp [ih]

lemma ssOf_self_eq_sum_sq (xs : List ℚ) :
    ssOf xs xs = (xs.map (fun x => (x - meanOf xs) ^ 2)).sum := by
  rw [ssOf, zip_self_map]
  exact congrArg List.sum (List.map_congr_left (fun x _ => (pow_two _).symm))

lemma ssOf_self_nonneg (xs : List ℚ) : 0 ≤ ssOf xs xs := by
  rw [ssOf_self_eq_sum_sq]
  apply List.sum_nonneg
  intro x hx
  rcases List.mem_map.1 hx with ⟨y, _, rfl⟩
  exact sq_nonneg _

lemma sum_sq_zero_all_eq (m : ℚ) :
    ∀ xs : List ℚ, (xs.map (fun x => (x - m) ^ 2)).sum = 0 → ∀ x ∈ xs, x = m := by
  intro xs
  induction xs with
  | nil =>
    intro _ x hx
    simp at hx
  | cons a xs ih =>
    intro h x hx
    rw [List.map_cons, List.sum_cons] at h
    have h1 : 0 ≤ (a - m) ^ 2 := sq_nonneg _
    have h2 : 0 ≤ (xs.map (fun x => (x - m) ^ 2)).sum :=
      List.sum_nonneg (fun y hy => by
        rcases List.mem_map.1 hy with ⟨z, _, rfl⟩
        exact sq_nonneg _)
    have hha : (a - m) ^ 2 = 0 := le_antisymm (by linarith) h1
    have hhs : (xs.map (fun x => (x - m) ^ 2)).sum = 0 := le_antisymm (by linarith) h2
    rcases List.mem_cons.1 hx with rfl | hx2
    · have := sq_eq_zero_iff.1 hha
      linarith
    · exact ih hhs x hx2

lemma sum_of_const (m : ℚ) :
    ∀ xs : List ℚ, (∀ x ∈ xs, x = m) → xs.sum = m * xs.length := by
  intro xs
  induction xs with
  | nil => simp
  | cons a xs ih =>
    intro h
    rw [List.sum_cons, ih (fun x hx => h x (by simp [hx])), h a (by simp)]
    push_cast [List.length_cons]
    ring

lemma meanOf_const (m : ℚ) (xs : List ℚ) (hne : xs ≠ []) (h : ∀ x ∈ xs, x = m) :
    meanOf xs = m := by
  rw [meanOf, sum_of_const m xs h]
  have hlen : (xs.length : ℚ) ≠ 0 :=
    Nat.cast_ne_zero.2 (fun hl => hne (List.length_eq_zero.1 hl))
  exact mul_div_cancel_right₀ m hlen

lemma ssOf_self_zero_of_const (m : ℚ) (xs : List ℚ) (h : ∀ x ∈ xs, x = m) :
    ssOf xs xs = 0 := by
  rcases eq_or_ne xs [] with rfl | hne
  · rfl
  · rw [ssOf_self_eq_sum_sq]
    have hm : meanOf xs = m := meanOf_const m xs hne h
    have hz : ∀ x ∈ xs, (x - meanOf xs) ^ 2 = (fun _ : ℚ => (0 : ℚ)) x := by
      intro x hx
      rw [hm, h x hx]
      ring
    rw [List.map_congr_left hz]
    simp

lemma ssOf_comm (xs ys : List ℚ) : ssOf xs ys = ssOf ys xs := by
  unfold ssOf
  have key : ∀ (us vs : List ℚ) (mu mv : ℚ),
      ((us.zip vs).map (fun p => (p.1 - mu) * (p.2 - mv))).sum
        = ((vs.zip us).map (fun p => (p.1 - mv) * (p.2 - mu))).sum := by
    intro us
    induction us with
    | nil =>
      intro vs mu mv
      cases vs <;> rfl
    | cons a us ih =>
      intro vs mu mv
      cases vs with
      | nil => rfl
      | cons b vs =>
        simp only [List.zip_cons_cons, List.map_cons, List.sum_cons, ih vs mu mv]
        ring
  exact key xs ys (meanOf xs) (meanOf ys)

lemma pairRows_comm (t : Table) (i j : ℕ) : pairRows t i j = pairRows t j i := by
  unfold pairRows
  apply List.filter_congr
  intro r _
  rw [Bool.and_comm]

lemma corrEntry_symm (t : Table) (i j : ℕ) : corrEntry t i j = corrEntry t j i := by
  simp only [corrEntry]
  rw [pairRows_comm t j i]
  by_cases h : ssOf (seriesAt (pairRows t i j) i) (seriesAt (pairRows t i j) i) = 0
      ∨ ssOf (seriesAt (pairRows t i j) j) (seriesAt (pairRows t i j) j) = 0
  · rw [if_pos h, if_pos (Or.symm h)]
  · rw [if_neg h, if_neg (fun hc => h (Or.symm hc))]
    rw [ssOf_comm (seriesAt (pairRows t i j) j) (seriesAt (pairRows t i j) i)]
    rw [mul_comm]

lemma corrEntry_diag (t : Table) (i : ℕ) (h : varSS t i ≠ 0) :
    corrEntry t i i = .val (varSS t i) (varSS t i * varSS t i) := by
  unfold varSS at h
  simp only [corrEntry]
  rw [if_neg (by rintro (hc | hc) <;> exact h hc)]
  rfl

lemma corrEntry_nan_left (t : Table) (i j : ℕ) (h : varSS t i = 0) :
    corrEntry t i j = .nan := by
  have hall : ∀ y ∈ seriesAt (pairRows t i i) i, y = meanOf (seriesAt (pairRows t i i) i) := by
    apply sum_sq_zero_all_eq
    rw [← ssOf_self_eq_sum_sq]
    exact h
  have hss : ssOf (seriesAt (pairRows t i j) i) (seriesAt (pairRows t i j) i) = 0 := by
    apply ssOf_self_zero_of_const (meanOf (seriesAt (pairRows t i i) i))
    intro x hx
    rcases List.mem_map.1 hx with ⟨r, hr, rfl⟩
    have hri : r ∈ pairRows t i i := by
      rcases List.mem_filter.1 hr with ⟨hrow, hcond⟩
      refine List.mem_filter.2 ⟨hrow, ?_⟩
      have h1 : (numAt r i).isSome = true := by
        have hc2 := hcond
        simp only [Bool.and_eq_true] at hc2
        exact hc2.1
      rw [h1]
      rfl
    exact hall _ (List.mem_map.2 ⟨r, hri, rfl⟩)
  simp only [corrEntry]
  rw [if_pos (Or.inl hss)]

/-- Claim C8: the correlation matrix is square over all numeric columns
(zero-variance columns are represented, not dropped); it is symmetric;
every diagonal entry of a column with nonzero variance mass represents
exactly the value 1.0; and every entry involving a zero-variance column
is the undefined nan entry. -/
theorem C8_correlation_symmetric_diag_nan (t : Table) :
    ((get_correlation_matrix t).length = (numericIdxs t).length
      ∧ ∀ row ∈ get_correlation_matrix t, row.length = (numericIdxs t).length)
    ∧ (∀ i j, corrEntry t i j = corrEntry t j i)
    ∧ (∀ i, varSS t i ≠ 0 → corrIsOne (corrEntry t i i))
    ∧ (∀ i j, varSS t i = 0 →
        corrEntry t i j = CorrEntry.nan ∧ corrEntry t j i = CorrEntry.nan) := by
  refine ⟨⟨?_, ?_⟩, ?_, ?_, ?_⟩
  · simp [get_correlation_matrix]
  · intro row hrow
    rcases List.mem_map.1 hrow with ⟨i, _, rfl⟩
    simp
  · exact fun i j => corrEntry_symm t i j
  · intro i h
    exact ⟨varSS t i, varSS t i * varSS t i, corrEntry_diag t i h,
      lt_of_le_of_ne (ssOf_self_nonneg _) (Ne.symm h), pow_two _⟩
  · intro i j h
    exact ⟨corrEntry_nan_left t i j h,
      (corrEntry_symm t j i).trans (corrEntry_nan_left t i j h)⟩

/-- Concrete table for the C8 witness: numeric columns A (values 1, 3)
and B (constant 5, zero variance), plus a text column. -/
def exC8 : Table :=
  ⟨["A", "B", "T"],
   [[Value.num 1, Value.num 5, Value.text "x"],
    [Value.num 3, Value.num 5, Value.text "y"]]⟩

/-- Witness for C8 at exC8: symmetry of the off-diagonal pair, a
diagonal representing 1.0 on the nonzero-variance column, and nan
entries on the constant column. -/
theorem C8_correlation_symmetric_diag_nan_witness :
    (get_correlation_matrix exC8).length = (numericIdxs exC8).length
    ∧ corrEntry exC8 0 1 = corrEntry exC8 1 0
    ∧ corrIsOne (corrEntry exC8 0 0)
    ∧ (corrEntry exC8 1 0 = CorrEntry.nan ∧ corrEntry exC8 0 1 = CorrEntry.nan) := by
  have h0 : varSS exC8 0 ≠ 0 := by
    norm_num [varSS, ssOf, seriesAt, pairRows, meanOf, numAt, cellAt, exC8, List.filter]
  have h1 : varSS exC8 1 = 0 := by
    norm_num [varSS, ssOf, seriesAt, pairRows, meanOf, numAt, cellAt, exC8, List.filter]
  exact ⟨(C8_correlation_symmetric_diag_nan exC8).1.1,
    (C8_correlation_symmetric_diag_nan exC8).2.1 0 1,
    (C8_correlation_symmetric_diag_nan exC8).2.2.1 0 h0,
    (C8_correlation_symmetric_diag_nan exC8).2.2.2 1 0 h1⟩

/-! ### Projection Engine (perform_pca_analysis, src/app.py lines 107-132) -/

/-- The numeric sub-frame built by perform_pca_analysis, namely
select_dtypes(include=[number]) followed by dropna(): the numeric
columns of every row that has no missing value among them, as rows of
rationals. -/
def numericRows (t : Table) : List (List ℚ) :=
  ((t.rows.map (fun r => (numericIdxs t).map (fun j => numAt r j))).filter
    (fun r => r.all Option.isSome)).map (fun r => r.map (fun o => o.getD 0))

/-- Outcome of perform_pca_analysis. insufficientData is the returned
error dict (the InsufficientDataError of the spec); invalidParameter is
the InvalidParameterError the spec mandates for an out-of-range
nClusters, produced by no code path; libraryError is an exception
raised inside sklearn that propagates uncaught; ok carries the
explained-variance ratios, the component rows and the optional cluster
labels. -/
inductive PcaOutcome where
  | insufficientData
  | invalidParameter
  | libraryError (msg : String)
  | ok (evr : List ℚ) (components : List (List ℚ)) (clusters : Option (List ℕ))
deriving DecidableEq

/-- Seed resolution of sklearn: an integer random_state fixes the seed
independently of the ambient entropy of the process; random_state=None
would draw it from the global generator. -/
def resolveSeed (randomState : Option ℕ) (entropy : ℕ) : ℕ :=
  match randomState with
  | some s => s
  | none => entropy

/-- KMeans(n_clusters=k).fit_predict of sklearn: it validates its inputs,
raising ValueError when k < 1 or when fewer samples than clusters are
given; otherwise the iterative clustering kmeansAlg runs under the
resolved seed. -/
def kmeansFitPredict (kmeansAlg : ℕ → List (List ℚ) → ℕ → List ℕ) (seed : ℕ)
    (pts : List (List ℚ)) (k : ℕ) : Except String (List ℕ) :=
  if k < 1 then .error "ValueError: n_clusters must be at least 1"
  else if pts.length < k then .error "ValueError: n_samples is less than n_clusters"
  else .ok (kmeansAlg seed pts k)

/-- perform_pca_analysis (src/app.py lines 107-132). pcaAlg abstracts
StandardScaler().fit_transform composed with PCA(n_components)
fit_transform, taking the filtered numeric rows to the component rows
and the explained-variance ratios; kmeansAlg abstracts the k-means
iteration. The only guard in the code is the insufficient-data check on
the filtered frame; n_clusters reaches KMeans unvalidated, and
random_state is fixed to 42. -/
def perform_pca_analysis (pcaAlg : List (List ℚ) → ℕ → List (List ℚ) × List ℚ)
    (kmeansAlg : ℕ → List (List ℚ) → ℕ → List ℕ) (entropy : ℕ) (t : Table)
    (n_components : ℕ) (apply_clustering : Bool) (n_clusters : ℕ) : PcaOutcome :=
  let df_num := numericRows t
  if df_num.length = 0 ∨ (numericIdxs t).length < n_components then .insufficientData
  else
    let p := pcaAlg df_num n_components
    if apply_clustering then
      match kmeansFitPredict kmeansAlg (resolveSeed (some 42) entropy) p.1 n_clusters with
      | .error m => .libraryError m
      | .ok cl => .ok p.2 p.1 (some cl)
    else .ok p.2 p.1 none

/-- A trivial stand-in decomposition algorithm for concrete witnesses:
components are the input rows, each variance ratio 0. -/
def pcaId : List (List ℚ) → ℕ → List (List ℚ) × List ℚ :=
  fun pts n => (pts, List.replicate n 0)

/-- A trivial stand-in clustering algorithm for concrete witnesses:
every point in cluster 0. -/
def kmZero : ℕ → List (List ℚ) → ℕ → List ℕ :=
  fun _ pts _ => List.replicate pts.length 0

/-- Claim C2: perform_pca_analysis returns the insufficient-data error
exactly when, after selecting the numeric columns and dropping the rows
with a missing value in that subset, no rows remain or fewer numeric
columns than n_components exist; in particular a table without numeric
columns always fails this way at n_components = 3. -/
theorem C2_insufficient_data_iff
    (pcaAlg : List (List ℚ) → ℕ → List (List ℚ) × List ℚ)
    (kmeansAlg : ℕ → List (List ℚ) → ℕ → List ℕ) (entropy : ℕ) :
    (∀ (t : Table) (nc : ℕ) (b : Bool) (k : ℕ),
      perform_pca_analysis pcaAlg kmeansAlg entropy t nc b k = .insufficientData
        ↔ ((numericRows t).length = 0 ∨ (numericIdxs t).length < nc))
    ∧ (∀ t : Table, (numericIdxs t).length = 0 → ∀ (b : Bool) (k : ℕ),
        perform_pca_analysis pcaAlg kmeansAlg entropy t 3 b k = .insufficientData) := by
  constructor
  · intro t nc b k
    constructor
    · intro h
      by_contra hc
      simp only [perform_pca_analysis] at h
      rw [if_neg hc] at h
      split at h
      · split at h
        · exact PcaOutcome.noConfusion h
        · exact PcaOutcome.noConfusion h
      · exact PcaOutcome.noConfusion h
    · intro hc
      simp only [perform_pca_analysis]
      rw [if_pos hc]
  · intro t h b k
    simp only [perform_pca_analysis]
    rw [if_pos (Or.inr (by omega))]

/-- Witness for C2: a table whose only column is text has no numeric
columns, and projecting it with n_components = 3 returns the
insufficient-data error. -/
theorem C2_insufficient_data_iff_witness :
    perform_pca_analysis pcaId kmZero 0 ⟨["T"], [[Value.text "a"]]⟩ 3 true 3
      = PcaOutcome.insufficientData :=
  (C2_insufficient_data_iff pcaId kmZero 0).2 ⟨["T"], [[Value.text "a"]]⟩ (by decide) true 3

/-- Claim C1, counterexample: on a table with one numeric column and two
complete rows, requesting n_clusters = 5 (greater than the two remaining
rows) does not fail with the InvalidParameterError the claim states: the
code has no such guard and the call surfaces the ValueError of the
clustering library instead. -/
theorem C1_counterexample :
    perform_pca_analysis pcaId kmZero 0
        ⟨["A"], [[Value.num 1], [Value.num 2]]⟩ 1 true 5
      = PcaOutcome.libraryError "ValueError: n_samples is less than n_clusters"
    ∧ perform_pca_analysis pcaId kmZero 0
        ⟨["A"], [[Value.num 1], [Value.num 2]]⟩ 1 true 5
      ≠ PcaOutcome.invalidParameter := by
  constructor
  · decide
  · decide

/-- Claim C1 as amended: perform_pca_analysis never produces an
InvalidParameterError; instead, whenever the insufficient-data guard
passes and n_clusters is below 1 or above the number of rows remaining
after dropping rows with missing numeric values (for any decomposition
algorithm preserving the row count, as PCA does), the call surfaces a
ValueError of the clustering library. -/
theorem C1_nclusters_library_error
    (pcaAlg : List (List ℚ) → ℕ → List (List ℚ) × List ℚ)
    (kmeansAlg : ℕ → List (List ℚ) → ℕ → List ℕ) (entropy : ℕ) :
    (∀ (t : Table) (nc : ℕ) (b : Bool) (k : ℕ),
      perform_pca_analysis pcaAlg kmeansAlg entropy t nc b k ≠ .invalidParameter)
    ∧ (∀ (t : Table) (nc k : ℕ),
        ¬((numericRows t).length = 0 ∨ (numericIdxs t).length < nc) →
        (pcaAlg (numericRows t) nc).1.length = (numericRows t).length →
        (k < 1 ∨ (numericRows t).length < k) →
        ∃ m, perform_pca_analysis pcaAlg kmeansAlg entropy t nc true k
          = .libraryError m) := by
  constructor
  · intro t nc b k h
    simp only [perform_pca_analysis] at h
    split at h
    · exact PcaOutcome.noConfusion h
    · split at h
      · split at h
        · exact PcaOutcome.noConfusion h
        · exact PcaOutcome.noConfusion h
      · exact PcaOutcome.noConfusion h
  · intro t nc k hguard hlen hk
    simp only [perform_pca_analysis]
    rw [if_neg hguard, if_pos trivial]
    unfold kmeansFitPredict
    by_cases h1 : k < 1
    · rw [if_pos h1]
      exact ⟨_, rfl⟩
    · rcases hk with hk1 | hk2
      · exact absurd hk1 h1
      · rw [if_neg h1, if_pos (by rw [hlen]; exact hk2)]
        exact ⟨_, rfl⟩

/-- Witness for the amended C1: the concrete out-of-range call of the
counterexample indeed surfaces a library error, and no call produces
InvalidParameterError. -/
theorem C1_nclusters_library_error_witness :
    perform_pca_analysis pcaId kmZero 0
        ⟨["A"], [[Value.num 1], [Value.num 2]]⟩ 2 true 3
      ≠ PcaOutcome.invalidParameter
    ∧ ∃ m, perform_pca_analysis pcaId kmZero 0
        ⟨["A"], [[Value.num 1], [Value.num 2]]⟩ 1 true 5
      = PcaOutcome.libraryError m :=
  ⟨(C1_nclusters_library_error pcaId kmZero 0).1 _ 2 true 3,
   (C1_nclusters_library_error pcaId kmZero 0).2 _ 1 5 (by decide) (by decide)
     (Or.inr (by decide))⟩

/-- Claim C9: perform_pca_analysis is deterministic across runs. The
ambient entropy of the process never reaches the clustering seed,
because the code fixes random_state to 42, so two runs on the same
table with the same n_components, clustering flag and n_clusters give
identical outcomes, cluster assignments included, whatever the
decomposition and clustering algorithms are. -/
theorem C9_projection_deterministic
    (pcaAlg : List (List ℚ) → ℕ → List (List ℚ) × List ℚ)
    (kmeansAlg : ℕ → List (List ℚ) → ℕ → List ℕ) (entropy1 entropy2 : ℕ)
    (t : Table) (nc : ℕ) (b : Bool) (k : ℕ) :
    perform_pca_analysis pcaAlg kmeansAlg entropy1 t nc b k
      = perform_pca_analysis pcaAlg kmeansAlg entropy2 t nc b k := rfl

/-! ### Session State and routes (src/app.py lines 207-258) -/

/-- The process-wide session df_global: None before any successful
load, the error string returned by load_data after a failed load, or
the active table. -/
inductive SessionState where
  | noData
  | loadErr (msg : String)
  | loaded (t : Table)
deriving DecidableEq

/-- A dispatcher response: a structured payload, or an HTTP error
status with its message. -/
inductive ApiResult (α : Type) where
  | ok (a : α)
  | err (code : ℕ) (msg : String)
deriving DecidableEq

/-- check_data_loaded (src/app.py lines 207-213): the NotLoadedError
response (status 400) for both the absent session and the failed-load
session; the active table otherwise. -/
def check_data_loaded (st : SessionState) : Except (ℕ × String) Table :=
  match st with
  | .noData => .error (400,
      "No hay datos cargados. Utiliza POST /upload para cargar un archivo CSV.")
  | .loadErr m => .error (400, "Error con los datos: " ++ m)
  | .loaded t => .ok t

/-- The summary route (src/app.py lines 219-224). -/
def summaryRoute (st : SessionState) : ApiResult SalesSummary :=
  match check_data_loaded st with
  | .error e => .err e.1 e.2
  | .ok t => .ok (get_sales_summary t)

/-- The grouped route (src/app.py lines 226-231). -/
def groupedRoute (st : SessionState) : ApiResult (List (String × ℚ)) :=
  match check_data_loaded st with
  | .error e => .err e.1 e.2
  | .ok t => .ok (group_sales_by_date t)

/-- The correlation route (src/app.py lines 233-238). -/
def correlationRoute (st : SessionState) : ApiResult (List (List CorrEntry)) :=
  match check_data_loaded st with
  | .error e => .err e.1 e.2
  | .ok t => .ok (get_correlation_matrix t)

/-- The distribution route (src/app.py lines 240-248): after the loaded
check, a None distribution (absent SALES column) becomes the 400
ColumnNotFoundError response, while a TypeError raised for a present
non-numeric SALES column propagates to the framework boundary as an
internal server error. -/
def distributionRoute (st : SessionState) : ApiResult DistSummary :=
  match check_data_loaded st with
  | .error e => .err e.1 e.2
  | .ok t =>
    match get_sales_distribution t "SALES" with
    | .colAbsent => .err 400 "Columna SALES no encontrada"
    | .typeError => .err 500 "TypeError: could not convert series statistics to float"
    | .stats d => .ok d

/-- The pca route (src/app.py lines 250-258), modeled up to delivery of
the analysis outcome at the default parameters of the endpoint. -/
def pcaRoute (pcaAlg : List (List ℚ) → ℕ → List (List ℚ) × List ℚ)
    (kmeansAlg : ℕ → List (List ℚ) → ℕ → List ℕ) (entropy : ℕ)
    (st : SessionState) : ApiResult PcaOutcome :=
  match check_data_loaded st with
  | .error e => .err e.1 e.2
  | .ok t => .ok (perform_pca_analysis pcaAlg kmeansAlg entropy t 3 true 3)

/-- Claim C3: in every session state in which no load has succeeded (no
active table, or a recorded load error), every read route fails with
the 400 NotLoadedError response of check_data_loaded instead of
returning data. -/
theorem C3_reads_fail_when_not_loaded (st : SessionState)
    (pcaAlg : List (List ℚ) → ℕ → List (List ℚ) × List ℚ)
    (kmeansAlg : ℕ → List (List ℚ) → ℕ → List ℕ) (entropy : ℕ)
    (h : ∀ t : Table, st ≠ .loaded t) :
    ∃ m, check_data_loaded st = .error (400, m)
      ∧ summaryRoute st = .err 400 m
      ∧ groupedRoute st = .err 400 m
      ∧ correlationRoute st = .err 400 m
      ∧ distributionRoute st = .err 400 m
      ∧ pcaRoute pcaAlg kmeansAlg entropy st = .err 400 m := by
  cases st with
  | noData => exact ⟨_, rfl, rfl, rfl, rfl, rfl, rfl⟩
  | loadErr m => exact ⟨_, rfl, rfl, rfl, rfl, rfl, rfl⟩
  | loaded t => exact absurd rfl (h t)

/-- Witness for C3 at the fresh session (df_global None). -/
theorem C3_reads_fail_when_not_loaded_witness :
    ∃ m, check_data_loaded SessionState.noData = .error (400, m)
      ∧ summaryRoute SessionState.noData = .err 400 m
      ∧ groupedRoute SessionState.noData = .err 400 m
      ∧ correlationRoute SessionState.noData = .err 400 m
      ∧ distributionRoute SessionState.noData = .err 400 m
      ∧ pcaRoute pcaId kmZero 0 SessionState.noData = .err 400 m :=
  C3_reads_fail_when_not_loaded SessionState.noData pcaId kmZero 0
    (fun _ h => SessionState.noConfusion h)

/-- Claim C4: load_data attempts the configured encodings in order and
returns the table parsed under the first encoding at which the read
does not raise a decode failure; when every configured encoding raises
a decode failure, it retries once under the default encoding with the
replace-invalid-characters policy; and a structural parse failure
yields the failure value carrying the exception message (the total
LoadResult return type is the no-exception guarantee). -/
theorem C4_loader_encoding_fallback (src : ByteSource) :
    (∀ (pre post : List String) (e : String) (t : Table),
      ENCODINGS = pre ++ e :: post →
      (∀ e' ∈ pre, read_csv src e' = .unicodeDecodeError) →
      read_csv src e = .ok t →
      load_data src = .table t)
    ∧ ((∀ e ∈ ENCODINGS, read_csv src e = .unicodeDecodeError) →
      load_data src =
        (match src.parseCsv src.decodeReplace with
         | .ok t => .table t
         | .error m => .failure m))
    ∧ (∀ (pre post : List String) (e m : String),
      ENCODINGS = pre ++ e :: post →
      (∀ e' ∈ pre, read_csv src e' = .unicodeDecodeError) →
      read_csv src e = .exception m →
      load_data src = .failure m) := by
  refine ⟨?_, ?_, ?_⟩
  · intro pre post e t hsplit hpre he
    unfold load_data
    rw [hsplit]
    exact tryEncodings_first src pre e post t hpre he
  · intro hall
    unfold load_data
    exact tryEncodings_fallback src ENCODINGS hall
  · intro pre post e m hsplit hpre he
    unfold load_data
    rw [hsplit]
    exact tryEncodings_exc src pre e post m hpre he

/-- Byte source for the C4 witness whose first encoding raises a decode
failure and whose second decodes to a text that parses. -/
def srcC4A : ByteSource :=
  { decodeStrict := fun enc => if enc = "iso-8859-1" then some "csv" else none
    decodeReplace := "rep"
    parseCsv := fun s => if s = "csv" then .ok ⟨["A"], []⟩ else .error "boom" }

/-- Byte source for the C4 witness on which every strict decode fails
and the replace-policy text parses. -/
def srcC4B : ByteSource :=
  { decodeStrict := fun _ => none
    decodeReplace := "rep"
    parseCsv := fun s => if s = "rep" then .ok ⟨["B"], []⟩ else .error "boom" }

/-- Byte source for the C4 witness whose first encoding decodes to a
structurally invalid text. -/
def srcC4C : ByteSource :=
  { decodeStrict := fun enc => if enc = "latin1" then some "bad" else none
    decodeReplace := "rep"
    parseCsv := fun _ => .error "ParserError: not tabular" }

/-- Witness for C4: the second-encoding success, the all-fail fallback
and the structural-failure value, each at its concrete byte source. -/
theorem C4_loader_encoding_fallback_witness :
    load_data srcC4A = .table ⟨["A"], []⟩
    ∧ load_data srcC4B = .table ⟨["B"], []⟩
    ∧ load_data srcC4C = .failure "ParserError: not tabular" :=
  ⟨(C4_loader_encoding_fallback srcC4A).1 ["latin1"] ["cp1252"] "iso-8859-1"
      ⟨["A"], []⟩ rfl (by decide) (by decide),
   (C4_loader_encoding_fallback srcC4B).2.1 (by decide),
   (C4_loader_encoding_fallback srcC4C).2.2 [] ["iso-8859-1", "cp1252"] "latin1"
      "ParserError: not tabular" rfl (by decide) (by decide)⟩
